import Mathlib

/-!
Shallow embedding of the online-banking-system ledger core (src/bank1.cpp).

Money amounts (C++ `double`) are modelled as exact rationals `ℚ`; the code
performs only additions, subtractions, multiplications and order comparisons
on them, so `ℚ` captures the intended arithmetic. The timestamp field of a
transaction record is an external-world value (wall-clock time) that no
balance logic reads, so it is omitted from the `Transaction` record.
The C++ class hierarchy `Account` / `SavingsAccount` / `CheckingAccount` is
embedded as a single `Account` structure carrying an `AccountKind` tag; the
one virtual method, `withdraw`, dispatches on that tag exactly as the C++
virtual call does. `shared_ptr` aliasing between the Bank registry and each
Customer is embedded by keeping all `Account` values in the Bank registry
(an association list keyed by account number) and letting a `Customer` hold
the keys of the accounts it owns.
-/

/-- Transaction record (struct Transaction, bank1.cpp:37): kind string,
amount, and resulting balance; the wall-clock date is omitted. -/
structure Transaction where
  ttype : String
  amount : ℚ
  newBalance : ℚ
  deriving Repr, DecidableEq

/-- Variant tag for the account class hierarchy: base `Account`,
`SavingsAccount` (with interest rate), `CheckingAccount` (with overdraft
limit). -/
inductive AccountKind where
  | base : AccountKind
  | savings (interestRate : ℚ) : AccountKind
  | checking (overdraftLimit : ℚ) : AccountKind
  deriving Repr, DecidableEq

/-- An account: number, owner, balance, append-only transaction history,
variant tag (class Account and subclasses, bank1.cpp:59-214). -/
structure Account where
  accountNumber : String
  ownerName : String
  balance : ℚ
  transactions : List Transaction
  kind : AccountKind
  deriving Repr, DecidableEq

/-- Account base-class constructor (bank1.cpp:68-79): validates the
account number, owner name and initial balance; a thrown
`invalid_argument` is embedded as `Except.error` with the message. -/
def mkAccount (accountNumber ownerName : String) (initialBalance : ℚ) :
    Except String Account :=
  if accountNumber.isEmpty then
    Except.error "Account number cannot be empty."
  else if ownerName.isEmpty then
    Except.error "Owner name cannot be empty."
  else if initialBalance < 0 then
    Except.error "Initial balance cannot be negative."
  else
    Except.ok ⟨accountNumber, ownerName, initialBalance, [], AccountKind.base⟩

/-- SavingsAccount constructor (bank1.cpp:144-150): the base constructor
runs first (member-initialization list), then the interest rate is checked. -/
def mkSavingsAccount (accountNumber ownerName : String)
    (initialBalance interestRate : ℚ) : Except String Account :=
  match mkAccount accountNumber ownerName initialBalance with
  | Except.error e => Except.error e
  | Except.ok a =>
      if interestRate < 0 ∨ interestRate > 1 then
        Except.error "Interest rate must be between 0 and 1 (e.g., 0.01 for 1%)."
      else
        Except.ok { a with kind := AccountKind.savings interestRate }

/-- CheckingAccount constructor (bank1.cpp:179-185): base constructor first,
then the overdraft limit is checked. -/
def mkCheckingAccount (accountNumber ownerName : String)
    (initialBalance overdraftLimit : ℚ) : Except String Account :=
  match mkAccount accountNumber ownerName initialBalance with
  | Except.error e => Except.error e
  | Except.ok a =>
      if overdraftLimit < 0 then
        Except.error "Overdraft limit cannot be negative."
      else
        Except.ok { a with kind := AccountKind.checking overdraftLimit }

/-- Account::deposit (bank1.cpp:91-101): rejects non-positive amounts,
otherwise adds the amount and appends a Deposit transaction. Returns the
C++ `bool` result together with the updated account object. -/
def Account.deposit (a : Account) (amount : ℚ) : Bool × Account :=
  if amount ≤ 0 then
    (false, a)
  else
    let newBal := a.balance + amount
    (true, { a with
               balance := newBal,
               transactions := a.transactions ++ [⟨"Deposit", amount, newBal⟩] })

/-- The virtual withdraw method: Account::withdraw (bank1.cpp:106-121) for
base and savings accounts, CheckingAccount::withdraw (bank1.cpp:188-205)
for checking accounts (the single override). -/
def Account.withdraw (a : Account) (amount : ℚ) : Bool × Account :=
  match a.kind with
  | AccountKind.checking overdraftLimit =>
      if amount ≤ 0 then
        (false, a)
      else if a.balance + overdraftLimit < amount then
        (false, a)
      else
        let newBal := a.balance - amount
        (true, { a with
                   balance := newBal,
                   transactions := a.transactions ++ [⟨"Withdrawal", amount, newBal⟩] })
  | _ =>
      if amount ≤ 0 then
        (false, a)
      else if a.balance < amount then
        (false, a)
      else
        let newBal := a.balance - amount
        (true, { a with
                   balance := newBal,
                   transactions := a.transactions ++ [⟨"Withdrawal", amount, newBal⟩] })

/-- SavingsAccount::applyInterest (bank1.cpp:153-160). In C++ this method
exists only on `SavingsAccount`; on the other variants (unreachable without
a downcast) the embedding leaves the account unchanged. -/
def Account.applyInterest (a : Account) : Account :=
  match a.kind with
  | AccountKind.savings interestRate =>
      let interestAmount := a.balance * interestRate
      let newBal := a.balance + interestAmount
      { a with
          balance := newBal,
          transactions := a.transactions ++ [⟨"Interest Applied", interestAmount, newBal⟩] }
  | _ => a

/-- One account-level operation, for stating properties over arbitrary
finite sequences of operations on a single account. -/
inductive AccOp where
  | dep (amount : ℚ) : AccOp
  | wd (amount : ℚ) : AccOp
  | interest : AccOp

/-- Apply one account-level operation (the C++ calls
`account->deposit(amt)`, `account->withdraw(amt)`,
`savings->applyInterest()`), keeping the updated object. -/
def Account.applyOp (a : Account) (op : AccOp) : Account :=
  match op with
  | AccOp.dep q => (a.deposit q).2
  | AccOp.wd q => (a.withdraw q).2
  | AccOp.interest => a.applyInterest

/-- Apply a finite sequence of account-level operations in order. -/
def Account.applyOps (a : Account) (ops : List AccOp) : Account :=
  ops.foldl Account.applyOp a

/-- Replay delta of one transaction as the spec describes it: Deposit and
Interest Applied add their amount, Withdrawal subtracts it. -/
def applyDelta (acc : ℚ) (t : Transaction) : ℚ :=
  if t.ttype = "Withdrawal" then acc - t.amount else acc + t.amount

/-- Fold a transaction history from 0, per the spec invariant
"balance is always derivable by replaying history from 0". -/
def replayHistory (ts : List Transaction) : ℚ :=
  ts.foldl applyDelta 0

/-- Association-list lookup, embedding `std::map::find` (first matching
key; the program never creates duplicate keys). -/
def lookupMap {α : Type} (l : List (String × α)) (k : String) : Option α :=
  match l with
  | [] => none
  | (k', v) :: rest => if k' = k then some v else lookupMap rest k

/-- Replace the value stored at a key (mutation through the shared
pointer held in the map); a missing key leaves the list unchanged. -/
def updateMap {α : Type} (l : List (String × α)) (k : String) (v : α) :
    List (String × α) :=
  match l with
  | [] => []
  | (k', v') :: rest =>
      if k' = k then (k', v) :: rest else (k', v') :: updateMap rest k v

/-- Embedding of `std::map` insertion via `operator[]`: overwrite the
existing entry if the key is present, otherwise append a new entry. -/
def insertMap {α : Type} (l : List (String × α)) (k : String) (v : α) :
    List (String × α) :=
  if (lookupMap l k).isSome then updateMap l k v else l ++ [(k, v)]

/-- A customer (class Customer, bank1.cpp:217-279). Its account map shares
ownership of `Account` objects with the Bank registry; the embedding keeps
the objects in the Bank registry and stores here the keys the customer's
map holds. -/
structure Customer where
  customerId : String
  name : String
  address : String
  accountNumbers : List String
  deriving Repr, DecidableEq

/-- Customer::addAccount (bank1.cpp:246-252): inserts the account under
its number; at the key level, inserting an already-present key changes
nothing. -/
def Customer.addAccountNumber (c : Customer) (n : String) : Customer :=
  if n ∈ c.accountNumbers then c
  else { c with accountNumbers := c.accountNumbers ++ [n] }

/-- The bank / ledger (class Bank, bank1.cpp:283-423): customer registry,
global account registry, and the two id-generation counters (initial
values from bank1.cpp:292-293). -/
structure Bank where
  name : String
  customers : List (String × Customer)
  accounts : List (String × Account)
  nextCustomerId : ℕ
  nextAccountNumber : ℕ

/-- Bank constructor (bank1.cpp:297). -/
def mkBank (name : String) : Bank :=
  ⟨name, [], [], 1000, 100000⟩

/-- Bank::getCustomer (bank1.cpp:312-318). -/
def Bank.getCustomer (bk : Bank) (customerId : String) : Option Customer :=
  lookupMap bk.customers customerId

/-- Bank::getAccount (bank1.cpp:350-356). -/
def Bank.getAccount (bk : Bank) (accountNumber : String) : Option Account :=
  lookupMap bk.accounts accountNumber

/-- Account-number generation: `"ACC" + to_string(_nextAccountNumber)`
(bank1.cpp:330). -/
def mkAcctNum (n : ℕ) : String :=
  "ACC" ++ Nat.repr n

/-- Result of Bank::createAccount (bank1.cpp:321-347). The C++ returns
`nullptr` after printing a distinct message when the customer is missing
or the type string is invalid, and lets a constructor exception escape;
the three observable failure modes are the three failure constructors. -/
inductive CreateResult where
  | ok (acc : Account) : CreateResult
  | customerNotFound : CreateResult
  | invalidType : CreateResult
  | invalidArgument (msg : String) : CreateResult
  deriving Repr, DecidableEq

/-- Bank::createAccount (bank1.cpp:321-347): looks up the customer,
generates the next account number (incrementing the counter before any
variant construction), constructs the requested variant, and on success
registers the account with both the customer and the global registry.
Note the counter increment happens even when the type string is invalid
or the constructor throws. -/
def Bank.createAccount (bk : Bank) (customerId accountType : String)
    (initialBalance interestRate overdraftLimit : ℚ) : CreateResult × Bank :=
  match lookupMap bk.customers customerId with
  | none => (CreateResult.customerNotFound, bk)
  | some customer =>
      let accountNumber := mkAcctNum bk.nextAccountNumber
      let bk1 := { bk with nextAccountNumber := bk.nextAccountNumber + 1 }
      if accountType = "savings" then
        match mkSavingsAccount accountNumber customer.name initialBalance interestRate with
        | Except.error e => (CreateResult.invalidArgument e, bk1)
        | Except.ok account =>
            let customer1 := customer.addAccountNumber accountNumber
            (CreateResult.ok account,
              { bk1 with
                  customers := updateMap bk1.customers customerId customer1,
                  accounts := insertMap bk1.accounts accountNumber account })
      else if accountType = "checking" then
        match mkCheckingAccount accountNumber customer.name initialBalance overdraftLimit with
        | Except.error e => (CreateResult.invalidArgument e, bk1)
        | Except.ok account =>
            let customer1 := customer.addAccountNumber accountNumber
            (CreateResult.ok account,
              { bk1 with
                  customers := updateMap bk1.customers customerId customer1,
                  accounts := insertMap bk1.accounts accountNumber account })
      else
        (CreateResult.invalidType, bk1)

/-- Outcome of Bank::transferFunds (bank1.cpp:359-389). The C++ returns a
`bool` and reports each failure through a distinct message; a successful
transfer reports both resulting balances (the withdraw and deposit calls
each report the new balance, bank1.cpp:98-99 and 118-119), captured in
the `success` payload. -/
inductive TransferResult where
  | success (fromBalance toBalance : ℚ) : TransferResult
  | srcNotFound : TransferResult
  | destNotFound : TransferResult
  | sameAccount : TransferResult
  | invalidAmount : TransferResult
  | insufficientFunds : TransferResult
  deriving Repr, DecidableEq

/-- Whether a transfer outcome corresponds to the C++ `true` return. -/
def TransferResult.isSuccess : TransferResult → Bool
  | TransferResult.success _ _ => true
  | _ => false

/-- Bank::transferFunds (bank1.cpp:359-389): precondition checks in source
order, then withdraw on the source; only if that succeeds, deposit on the
destination. Mutation through the shared pointers is embedded by writing
the returned account objects back into the registry. -/
def Bank.transferFunds (bk : Bank) (fromNum toNum : String) (amount : ℚ) :
    TransferResult × Bank :=
  match lookupMap bk.accounts fromNum with
  | none => (TransferResult.srcNotFound, bk)
  | some fromAccount =>
      match lookupMap bk.accounts toNum with
      | none => (TransferResult.destNotFound, bk)
      | some toAccount =>
          if fromNum = toNum then
            (TransferResult.sameAccount, bk)
          else if amount ≤ 0 then
            (TransferResult.invalidAmount, bk)
          else
            let wd := fromAccount.withdraw amount
            if wd.1 then
              let dp := toAccount.deposit amount
              (TransferResult.success wd.2.balance dp.2.balance,
                { bk with
                    accounts := updateMap (updateMap bk.accounts fromNum wd.2) toNum dp.2 })
            else
              (TransferResult.insufficientFunds,
                { bk with accounts := updateMap bk.accounts fromNum wd.2 })

/-- One bank-level operation: a deposit or withdrawal performed through an
account handle obtained from the registry, or a transfer. -/
inductive BankOp where
  | dep (accountNumber : String) (amount : ℚ) : BankOp
  | wd (accountNumber : String) (amount : ℚ) : BankOp
  | transfer (fromNum toNum : String) (amount : ℚ) : BankOp


/-- Apply one bank-level operation. Deposits and withdrawals mutate the
shared account object in place, embedded as a write-back into the
registry; an unknown account number is a no-op (the C++ caller holds a
valid pointer). -/
def Bank.applyBankOp (bk : Bank) (op : BankOp) : Bank :=
  match op with
  | BankOp.dep n q =>
      match lookupMap bk.accounts n with
      | none => bk
      | some a => { bk with accounts := updateMap bk.accounts n (a.deposit q).2 }
  | BankOp.wd n q =>
      match lookupMap bk.accounts n with
      | none => bk
      | some a => { bk with accounts := updateMap bk.accounts n (a.withdraw q).2 }
  | BankOp.transfer f t q => (bk.transferFunds f t q).2

/-- Apply a finite sequence of bank-level operations in order. -/
def Bank.applyBankOps (bk : Bank) (ops : List BankOp) : Bank :=
  ops.foldl Bank.applyBankOp bk

/-! Account-level helper lemmas. -/

/-- A withdrawal either leaves the account unchanged and reports failure,
or reports success with the amount subtracted and a Withdrawal record
appended. -/
theorem Account.withdraw_spec (a : Account) (q : ℚ) :
    a.withdraw q = (false, a) ∨
      a.withdraw q =
        (true, { a with
                   balance := a.balance - q,
                   transactions := a.transactions ++ [⟨"Withdrawal", q, a.balance - q⟩] }) := by
  unfold Account.withdraw
  cases hk : a.kind <;> simp only [] <;> split_ifs <;> simp_all

/-- A deposit either leaves the account unchanged and reports failure, or
reports success with the amount added and a Deposit record appended. -/
theorem Account.deposit_spec (a : Account) (q : ℚ) :
    a.deposit q = (false, a) ∨
      a.deposit q =
        (true, { a with
                   balance := a.balance + q,
                   transactions := a.transactions ++ [⟨"Deposit", q, a.balance + q⟩] }) := by
  unfold Account.deposit
  split_ifs <;> simp_all

/-- A failed withdrawal leaves the account object unchanged. -/
theorem Account.withdraw_fail_eq (a : Account) (q : ℚ)
    (h : (a.withdraw q).1 = false) : a.withdraw q = (false, a) := by
  rcases Account.withdraw_spec a q with hs | hs
  · exact hs
  · rw [hs] at h
    simp at h

/-- A successful withdrawal subtracts the amount and appends the record. -/
theorem Account.withdraw_success_eq (a : Account) (q : ℚ)
    (h : (a.withdraw q).1 = true) :
    a.withdraw q =
      (true, { a with
                 balance := a.balance - q,
                 transactions := a.transactions ++ [⟨"Withdrawal", q, a.balance - q⟩] }) := by
  rcases Account.withdraw_spec a q with hs | hs
  · rw [hs] at h
    simp at h
  · exact hs

/-- A failed deposit leaves the account object unchanged. -/
theorem Account.deposit_fail_eq (a : Account) (q : ℚ)
    (h : (a.deposit q).1 = false) : a.deposit q = (false, a) := by
  rcases Account.deposit_spec a q with hs | hs
  · exact hs
  · rw [hs] at h
    simp at h

/-- A successful deposit adds the amount and appends the record. -/
theorem Account.deposit_success_eq (a : Account) (q : ℚ)
    (h : (a.deposit q).1 = true) :
    a.deposit q =
      (true, { a with
                 balance := a.balance + q,
                 transactions := a.transactions ++ [⟨"Deposit", q, a.balance + q⟩] }) := by
  rcases Account.deposit_spec a q with hs | hs
  · rw [hs] at h
    simp at h
  · exact hs

/-- A deposit succeeds exactly when the amount is positive. -/
theorem Account.deposit_true_iff (a : Account) (q : ℚ) :
    (a.deposit q).1 = true ↔ 0 < q := by
  unfold Account.deposit
  split_ifs with h <;> simp_all

/-- A withdrawal succeeds exactly when the amount is positive and the
variant's balance policy permits it. -/
theorem Account.withdraw_true_iff (a : Account) (q : ℚ) :
    (a.withdraw q).1 = true ↔
      (0 < q ∧ match a.kind with
               | AccountKind.checking L => q ≤ a.balance + L
               | _ => q ≤ a.balance) := by
  unfold Account.withdraw
  cases hk : a.kind <;> simp only [] <;> split_ifs with h1 h2 <;> simp_all

/-- Deposits do not change the variant tag. -/
theorem Account.kind_deposit (a : Account) (q : ℚ) :
    (a.deposit q).2.kind = a.kind := by
  rcases Account.deposit_spec a q with hs | hs <;> rw [hs]

/-- Withdrawals do not change the variant tag. -/
theorem Account.kind_withdraw (a : Account) (q : ℚ) :
    (a.withdraw q).2.kind = a.kind := by
  rcases Account.withdraw_spec a q with hs | hs <;> rw [hs]

/-- Interest application does not change the variant tag. -/
theorem Account.kind_applyInterest (a : Account) :
    a.applyInterest.kind = a.kind := by
  unfold Account.applyInterest
  cases hk : a.kind <;> simp_all

/-! Replay (history fold) lemmas. -/

/-- Appending one transaction folds one more delta. -/
theorem replayHistory_append (ts : List Transaction) (t : Transaction) :
    replayHistory (ts ++ [t]) = applyDelta (replayHistory ts) t := by
  unfold replayHistory
  rw [List.foldl_append]
  rfl

/-- One account-level operation changes the balance and the replayed
history by the same delta. -/
theorem Account.applyOp_offset (a : Account) (op : AccOp) :
    (a.applyOp op).balance - replayHistory (a.applyOp op).transactions
      = a.balance - replayHistory a.transactions := by
  cases op with
  | dep q =>
      rcases Account.deposit_spec a q with hs | hs <;>
        simp [Account.applyOp, hs, replayHistory_append, applyDelta]
  | wd q =>
      rcases Account.withdraw_spec a q with hs | hs <;>
        simp [Account.applyOp, hs, replayHistory_append, applyDelta]
  | interest =>
      unfold Account.applyOp Account.applyInterest
      cases hk : a.kind <;>
        simp [replayHistory_append, applyDelta]

/-- A sequence of account-level operations preserves the gap between the
balance and the replayed history. -/
theorem Account.applyOps_offset (a : Account) (ops : List AccOp) :
    (a.applyOps ops).balance - replayHistory (a.applyOps ops).transactions
      = a.balance - replayHistory a.transactions := by
  induction ops generalizing a with
  | nil => rfl
  | cons op rest ih =>
      unfold Account.applyOps at ih ⊢
      simp only [List.foldl_cons]
      rw [ih]
      exact Account.applyOp_offset a op

/-- A freshly constructed base account carries the initial balance and an
empty history. -/
theorem mkAccount_ok_fields (n o : String) (b : ℚ) (a : Account)
    (h : mkAccount n o b = Except.ok a) :
    a.balance = b ∧ a.transactions = [] := by
  unfold mkAccount at h
  split_ifs at h
  simp_all
  rw [← h]
  exact ⟨rfl, rfl⟩

/-- A freshly constructed savings account carries the initial balance and
an empty history. -/
theorem mkSavingsAccount_ok_fields (n o : String) (b r : ℚ) (a : Account)
    (h : mkSavingsAccount n o b r = Except.ok a) :
    a.balance = b ∧ a.transactions = [] := by
  unfold mkSavingsAccount at h
  cases hm : mkAccount n o b with
  | error e => rw [hm] at h; cases h
  | ok a0 =>
      rw [hm] at h
      split_ifs at h
      cases h
      have := mkAccount_ok_fields n o b a0 hm
      exact this

/-- A freshly constructed checking account carries the initial balance and
an empty history. -/
theorem mkCheckingAccount_ok_fields (n o : String) (b L : ℚ) (a : Account)
    (h : mkCheckingAccount n o b L = Except.ok a) :
    a.balance = b ∧ a.transactions = [] := by
  unfold mkCheckingAccount at h
  cases hm : mkAccount n o b with
  | error e => rw [hm] at h; cases h
  | ok a0 =>
      rw [hm] at h
      split_ifs at h
      cases h
      have := mkAccount_ok_fields n o b a0 hm
      exact this

/-! Claim C1. -/

/-- C1, as stated, is false on the code: an account constructed with a
positive initial balance starts with an empty history, so its balance (the
initial balance) differs from the history replayed from 0. Concretely, a
base account opened with balance 1 and subjected to the empty operation
sequence has balance 1 while the replayed history is 0. -/
theorem c1_counterexample :
    ∃ a : Account,
      mkAccount "ACC100000" "Alice Smith" 1 = Except.ok a ∧
      a.applyOps [] = a ∧
      ¬ a.balance = replayHistory a.transactions := by
  refine ⟨⟨"ACC100000", "Alice Smith", 1, [], AccountKind.base⟩, rfl, rfl, by decide⟩

/-- C1 (amended): for every account (base, savings, or checking) created
with any non-negative initial balance, after any finite sequence of
deposit, withdraw, and applyInterest operations, the account's balance
equals the initial balance plus the fold of its transaction history
starting from 0, where Deposit and InterestApplied transactions add their
amount and Withdrawal transactions subtract it. -/
theorem c1_balance_replays_history (n o : String) (b : ℚ) (a : Account)
    (ops : List AccOp)
    (h : mkAccount n o b = Except.ok a ∨
         (∃ r, mkSavingsAccount n o b r = Except.ok a) ∨
         (∃ L, mkCheckingAccount n o b L = Except.ok a)) :
    (a.applyOps ops).balance
      = b + replayHistory (a.applyOps ops).transactions := by
  have hinit : a.balance = b ∧ a.transactions = [] := by
    rcases h with h | ⟨r, h⟩ | ⟨L, h⟩
    · exact mkAccount_ok_fields n o b a h
    · exact mkSavingsAccount_ok_fields n o b r a h
    · exact mkCheckingAccount_ok_fields n o b L a h
  have hoff := Account.applyOps_offset a ops
  rw [hinit.1, hinit.2] at hoff
  have h0 : replayHistory ([] : List Transaction) = 0 := rfl
  rw [h0] at hoff
  linarith

/-- Witness for the amended C1: a savings account opened with balance 1000
and rate 1, after a deposit of 200, a withdrawal of 50 and an interest
application, has balance 1000 plus its replayed history. -/
theorem c1_balance_replays_history_witness :
    ∃ a : Account,
      mkSavingsAccount "ACC100000" "Alice Smith" 1000 1 = Except.ok a ∧
      (a.applyOps [AccOp.dep 200, AccOp.wd 50, AccOp.interest]).balance
        = 1000 + replayHistory
            (a.applyOps [AccOp.dep 200, AccOp.wd 50, AccOp.interest]).transactions := by
  have hok : mkSavingsAccount "ACC100000" "Alice Smith" 1000 1
      = Except.ok ⟨"ACC100000", "Alice Smith", 1000, [], AccountKind.savings 1⟩ := by
    rfl
  exact ⟨_, hok,
    c1_balance_replays_history "ACC100000" "Alice Smith" 1000 _
      [AccOp.dep 200, AccOp.wd 50, AccOp.interest] (Or.inr (Or.inl ⟨1, hok⟩))⟩

/-! Concrete sample data reused by the witness theorems. -/

/-- A concrete base account with balance 5. -/
def sampleBase : Account :=
  ⟨"ACC100000", "Alice Smith", 5, [], AccountKind.base⟩

/-- A concrete checking account with balance 500 and overdraft limit 200. -/
def sampleChecking : Account :=
  ⟨"ACC100001", "Alice Smith", 500, [], AccountKind.checking 200⟩

/-! Claim C3. -/

/-- C3: for every positive withdrawal amount, a withdrawal from a base or
savings account succeeds if and only if balance ≥ amount, and a withdrawal
from a checking account succeeds if and only if balance + overdraftLimit ≥
amount; on success the balance decreases by exactly the amount and a
Withdrawal transaction is appended. -/
theorem c3_withdraw_policy (a : Account) (q : ℚ) (hq : 0 < q) :
    ((a.withdraw q).1 = true ↔
      (match a.kind with
       | AccountKind.checking L => a.balance + L ≥ q
       | _ => a.balance ≥ q)) ∧
    ((a.withdraw q).1 = true →
      (a.withdraw q).2.balance = a.balance - q ∧
      (a.withdraw q).2.transactions
        = a.transactions ++ [⟨"Withdrawal", q, a.balance - q⟩]) := by
  constructor
  · rw [Account.withdraw_true_iff]
    cases hk : a.kind <;> simp [hk, hq, ge_iff_le]
  · intro h
    rw [Account.withdraw_success_eq a q h]
    exact ⟨rfl, rfl⟩

/-- Witness for C3 at a base account with balance 5 and amount 3. -/
theorem c3_withdraw_policy_witness :
    ((sampleBase.withdraw 3).1 = true ↔
      (match sampleBase.kind with
       | AccountKind.checking L => sampleBase.balance + L ≥ 3
       | _ => sampleBase.balance ≥ 3)) ∧
    ((sampleBase.withdraw 3).1 = true →
      (sampleBase.withdraw 3).2.balance = sampleBase.balance - 3 ∧
      (sampleBase.withdraw 3).2.transactions
        = sampleBase.transactions ++ [⟨"Withdrawal", 3, sampleBase.balance - 3⟩]) :=
  c3_withdraw_policy sampleBase 3 (by norm_num)

/-! Claim C7. -/

/-- C7: a rejected deposit (non-positive amount) or rejected withdrawal
(non-positive amount or policy violation) leaves the balance and the
length of the transaction history identical to before the call, and the
failure is reported to the caller non-fatally (the call returns false
rather than aborting). Deposits are rejected exactly when the amount is
non-positive. -/
theorem c7_rejected_no_change (a : Account) (q : ℚ) :
    (((a.deposit q).1 = false ↔ q ≤ 0) ∧
     ((a.deposit q).1 = false →
        (a.deposit q).2.balance = a.balance ∧
        (a.deposit q).2.transactions.length = a.transactions.length) ∧
     ((a.withdraw q).1 = false →
        (a.withdraw q).2.balance = a.balance ∧
        (a.withdraw q).2.transactions.length = a.transactions.length)) := by
  refine ⟨⟨?_, ?_⟩, ?_, ?_⟩
  · intro h
    by_contra hq
    rw [not_le] at hq
    rw [(Account.deposit_true_iff a q).mpr hq] at h
    cases h
  · intro hq
    cases hb : (a.deposit q).1 with
    | false => rfl
    | true => exact absurd ((Account.deposit_true_iff a q).mp hb) (not_lt.mpr hq)
  · intro h
    rw [Account.deposit_fail_eq a q h]
    exact ⟨rfl, rfl⟩
  · intro h
    rw [Account.withdraw_fail_eq a q h]
    exact ⟨rfl, rfl⟩

/-- Witness for C7 at a base account with balance 5 and amount -1. -/
theorem c7_rejected_no_change_witness :
    (((sampleBase.deposit (-1)).1 = false ↔ (-1 : ℚ) ≤ 0) ∧
     ((sampleBase.deposit (-1)).1 = false →
        (sampleBase.deposit (-1)).2.balance = sampleBase.balance ∧
        (sampleBase.deposit (-1)).2.transactions.length
          = sampleBase.transactions.length) ∧
     ((sampleBase.withdraw (-1)).1 = false →
        (sampleBase.withdraw (-1)).2.balance = sampleBase.balance ∧
        (sampleBase.withdraw (-1)).2.transactions.length
          = sampleBase.transactions.length)) :=
  c7_rejected_no_change sampleBase (-1)

/-! Association-list map lemmas. -/

/-- Looking up a different key is unaffected by an update. -/
theorem lookupMap_update_ne {α : Type} (l : List (String × α)) (k k' : String)
    (v : α) (h : k' ≠ k) :
    lookupMap (updateMap l k v) k' = lookupMap l k' := by
  induction l with
  | nil => rfl
  | cons e rest ih =>
      obtain ⟨ek, ev⟩ := e
      unfold updateMap lookupMap
      split_ifs with h1 h2 h3 <;> simp_all [lookupMap]

/-- Looking up the updated key yields the new value when the key was
present. -/
theorem lookupMap_update_self {α : Type} (l : List (String × α)) (k : String)
    (v w : α) (h : lookupMap l k = some w) :
    lookupMap (updateMap l k v) k = some v := by
  induction l with
  | nil => cases h
  | cons e rest ih =>
      obtain ⟨ek, ev⟩ := e
      unfold lookupMap at h
      unfold updateMap
      split_ifs at h ⊢ with h1 <;> simp_all [lookupMap]

/-- Writing back the value already stored at a key changes nothing. -/
theorem updateMap_self {α : Type} (l : List (String × α)) (k : String)
    (v : α) (h : lookupMap l k = some v) : updateMap l k v = l := by
  induction l with
  | nil => rfl
  | cons e rest ih =>
      obtain ⟨ek, ev⟩ := e
      unfold lookupMap at h
      unfold updateMap
      split_ifs at h ⊢ with h1 <;> simp_all

/-- A successful lookup exposes a member of the association list. -/
theorem lookupMap_mem {α : Type} (l : List (String × α)) (k : String) (v : α)
    (h : lookupMap l k = some v) : (k, v) ∈ l := by
  induction l with
  | nil => cases h
  | cons e rest ih =>
      obtain ⟨ek, ev⟩ := e
      unfold lookupMap at h
      split_ifs at h with h1 <;> simp_all

/-- Every entry of an updated list is the new entry or an old entry. -/
theorem mem_updateMap {α : Type} (l : List (String × α)) (k : String)
    (v : α) (e : String × α) (h : e ∈ updateMap l k v) :
    e.2 = v ∨ e ∈ l := by
  induction l with
  | nil => cases h
  | cons e0 rest ih =>
      obtain ⟨ek, ev⟩ := e0
      unfold updateMap at h
      split_ifs at h with h1
      · rcases List.mem_cons.mp h with h2 | h2
        · left; rw [h2]
        · right; exact List.mem_cons_of_mem _ h2
      · rcases List.mem_cons.mp h with h2 | h2
        · right; rw [h2]; exact List.mem_cons_self _ _
        · rcases ih h2 with h3 | h3
          · left; exact h3
          · right; exact List.mem_cons_of_mem _ h3

/-- Every entry of an insertion is the inserted value or an old entry. -/
theorem mem_insertMap {α : Type} (l : List (String × α)) (k : String)
    (v : α) (e : String × α) (h : e ∈ insertMap l k v) :
    e.2 = v ∨ e ∈ l := by
  unfold insertMap at h
  split_ifs at h with h1
  · exact mem_updateMap l k v e h
  · rcases List.mem_append.mp h with h2 | h2
    · right; exact h2
    · left
      have : e = (k, v) := by simpa using h2
      rw [this]

/-! Transfer characterization lemmas. -/

/-- A transfer whose withdrawal step fails returns the failure and leaves
the bank exactly as it was. -/
theorem Bank.transferFunds_insufficient (bk : Bank) (fromNum toNum : String)
    (q : ℚ) (fa ta : Account)
    (hf : lookupMap bk.accounts fromNum = some fa)
    (ht : lookupMap bk.accounts toNum = some ta)
    (hne : fromNum ≠ toNum) (hq : 0 < q)
    (hw : (fa.withdraw q).1 = false) :
    bk.transferFunds fromNum toNum q = (TransferResult.insufficientFunds, bk) := by
  have hwa : fa.withdraw q = (false, fa) := Account.withdraw_fail_eq fa q hw
  unfold Bank.transferFunds
  rw [hf, ht]
  simp [if_neg hne, if_neg (not_le.mpr hq), hwa, updateMap_self bk.accounts fromNum fa hf]

/-- A transfer whose preconditions hold and whose withdrawal step succeeds
returns both resulting balances and writes both updated accounts back. -/
theorem Bank.transferFunds_success_eq (bk : Bank) (fromNum toNum : String)
    (q : ℚ) (fa ta : Account)
    (hf : lookupMap bk.accounts fromNum = some fa)
    (ht : lookupMap bk.accounts toNum = some ta)
    (hne : fromNum ≠ toNum) (hq : 0 < q)
    (hw : (fa.withdraw q).1 = true) :
    bk.transferFunds fromNum toNum q =
      (TransferResult.success (fa.balance - q) (ta.balance + q),
       { bk with
           accounts := updateMap (updateMap bk.accounts fromNum (fa.withdraw q).2)
                         toNum (ta.deposit q).2 }) := by
  have hwa := Account.withdraw_success_eq fa q hw
  have hdp := Account.deposit_success_eq ta q ((Account.deposit_true_iff ta q).mpr hq)
  unfold Bank.transferFunds
  rw [hf, ht]
  simp only [if_neg hne, if_neg (not_le.mpr hq), hw, if_true]
  rw [hwa, hdp]

/-! Claim C2. -/

/-- C2: for every transfer between two existing, distinct accounts with a
positive amount, if the withdrawal step on the source fails, transferFunds
reports failure and the destination's balance and transaction history are
exactly as before the call — indeed the entire bank state is unchanged. -/
theorem c2_transfer_atomic_on_failure (bk : Bank) (fromNum toNum : String)
    (q : ℚ) (fa ta : Account)
    (hf : lookupMap bk.accounts fromNum = some fa)
    (ht : lookupMap bk.accounts toNum = some ta)
    (hne : fromNum ≠ toNum) (hq : 0 < q)
    (hw : (fa.withdraw q).1 = false) :
    bk.transferFunds fromNum toNum q = (TransferResult.insufficientFunds, bk) ∧
    lookupMap (bk.transferFunds fromNum toNum q).2.accounts toNum = some ta := by
  have h := Bank.transferFunds_insufficient bk fromNum toNum q fa ta hf ht hne hq hw
  refine ⟨h, ?_⟩
  rw [h]
  exact ht

/-! The concrete bank used by the witness theorems: one customer holding
the two sample accounts, mirroring the state after the demo driver opens
them. -/

/-- A concrete bank state with the two sample accounts registered. -/
def sampleBank : Bank :=
  ⟨"Global Bank Inc.",
   [("C1000", ⟨"C1000", "Alice Smith", "123 Main St, Anytown",
               ["ACC100000", "ACC100001"]⟩)],
   [("ACC100000", sampleBase), ("ACC100001", sampleChecking)],
   1001, 100002⟩

/-- Witness for C2: transferring 100 out of the base account with balance
5 fails and leaves the bank unchanged. -/
theorem c2_transfer_atomic_on_failure_witness :
    sampleBank.transferFunds "ACC100000" "ACC100001" 100
      = (TransferResult.insufficientFunds, sampleBank) ∧
    lookupMap (sampleBank.transferFunds "ACC100000" "ACC100001" 100).2.accounts
      "ACC100001" = some sampleChecking :=
  c2_transfer_atomic_on_failure sampleBank "ACC100000" "ACC100001" 100
    sampleBase sampleChecking rfl rfl (by decide) (by norm_num) rfl

/-! Claim C5. -/

/-- C5: when transferFunds succeeds (both accounts exist, they are
distinct, the amount is positive, and the source's withdrawal policy
permits it), it returns success together with both resulting balances —
the source's balance minus the amount and the destination's balance plus
the amount — and the registry holds accounts with exactly those balances. -/
theorem c5_transfer_success_result (bk : Bank) (fromNum toNum : String)
    (q : ℚ) (fa ta : Account)
    (hf : lookupMap bk.accounts fromNum = some fa)
    (ht : lookupMap bk.accounts toNum = some ta)
    (hne : fromNum ≠ toNum) (hq : 0 < q)
    (hw : (fa.withdraw q).1 = true) :
    (bk.transferFunds fromNum toNum q).1
      = TransferResult.success (fa.balance - q) (ta.balance + q) ∧
    (∃ fa2, lookupMap (bk.transferFunds fromNum toNum q).2.accounts fromNum
              = some fa2 ∧ fa2.balance = fa.balance - q) ∧
    (∃ ta2, lookupMap (bk.transferFunds fromNum toNum q).2.accounts toNum
              = some ta2 ∧ ta2.balance = ta.balance + q) := by
  have h := Bank.transferFunds_success_eq bk fromNum toNum q fa ta hf ht hne hq hw
  rw [h]
  refine ⟨rfl, ⟨(fa.withdraw q).2, ?_, ?_⟩, ⟨(ta.deposit q).2, ?_, ?_⟩⟩
  · rw [lookupMap_update_ne _ toNum fromNum _ hne]
    exact lookupMap_update_self bk.accounts fromNum (fa.withdraw q).2 fa hf
  · rw [Account.withdraw_success_eq fa q hw]
  · have : lookupMap (updateMap bk.accounts fromNum (fa.withdraw q).2) toNum
        = some ta := by
      rw [lookupMap_update_ne _ fromNum toNum _ (Ne.symm hne)]
      exact ht
    exact lookupMap_update_self _ toNum (ta.deposit q).2 ta this
  · rw [Account.deposit_success_eq ta q ((Account.deposit_true_iff ta q).mpr hq)]

/-- Witness for C5: transferring 3 from the base account with balance 5 to
the checking account with balance 500 succeeds with balances 2 and 503. -/
theorem c5_transfer_success_result_witness :
    (sampleBank.transferFunds "ACC100000" "ACC100001" 3).1
      = TransferResult.success (sampleBase.balance - 3) (sampleChecking.balance + 3) ∧
    (∃ fa2, lookupMap (sampleBank.transferFunds "ACC100000" "ACC100001" 3).2.accounts
              "ACC100000" = some fa2 ∧ fa2.balance = sampleBase.balance - 3) ∧
    (∃ ta2, lookupMap (sampleBank.transferFunds "ACC100000" "ACC100001" 3).2.accounts
              "ACC100001" = some ta2 ∧ ta2.balance = sampleChecking.balance + 3) :=
  c5_transfer_success_result sampleBank "ACC100000" "ACC100001" 3
    sampleBase sampleChecking rfl rfl (by decide) (by norm_num) rfl

/-! Claim C6. -/

/-- C6: transferFunds checks its preconditions in this exact order, each
yielding a distinct non-fatal failure and no state change: source not
found, then destination not found, then same account, then non-positive
amount; when an earlier condition fails, the reported failure is that
earlier one. -/
theorem c6_precondition_order (bk : Bank) (fromNum toNum : String) (q : ℚ) :
    (lookupMap bk.accounts fromNum = none →
       bk.transferFunds fromNum toNum q = (TransferResult.srcNotFound, bk)) ∧
    (∀ fa, lookupMap bk.accounts fromNum = some fa →
       lookupMap bk.accounts toNum = none →
       bk.transferFunds fromNum toNum q = (TransferResult.destNotFound, bk)) ∧
    (∀ fa ta, lookupMap bk.accounts fromNum = some fa →
       lookupMap bk.accounts toNum = some ta →
       fromNum = toNum →
       bk.transferFunds fromNum toNum q = (TransferResult.sameAccount, bk)) ∧
    (∀ fa ta, lookupMap bk.accounts fromNum = some fa →
       lookupMap bk.accounts toNum = some ta →
       fromNum ≠ toNum → q ≤ 0 →
       bk.transferFunds fromNum toNum q = (TransferResult.invalidAmount, bk)) := by
  refine ⟨?_, ?_, ?_, ?_⟩
  · intro h
    unfold Bank.transferFunds
    rw [h]
  · intro fa hf ht
    unfold Bank.transferFunds
    rw [hf, ht]
  · intro fa ta hf ht heq
    unfold Bank.transferFunds
    rw [hf, ht]
    simp [heq]
  · intro fa ta hf ht hne hq
    unfold Bank.transferFunds
    rw [hf, ht]
    simp [hne, hq]

/-- Witness for C6: a transfer from an unknown account number fails with
the source-not-found error and leaves the bank unchanged. -/
theorem c6_precondition_order_witness :
    sampleBank.transferFunds "ACC999999" "ACC100000" 5
      = (TransferResult.srcNotFound, sampleBank) :=
  (c6_precondition_order sampleBank "ACC999999" "ACC100000" 5).1 rfl

/-! Claim C9. -/

/-- C9: a successful transfer conserves the sum of the two balances — the
source decreases by exactly the amount, the destination increases by
exactly the amount — and the account stored under every other number is
unchanged. -/
theorem c9_transfer_conservation (bk : Bank) (fromNum toNum : String)
    (q : ℚ) (fa ta : Account)
    (hf : lookupMap bk.accounts fromNum = some fa)
    (ht : lookupMap bk.accounts toNum = some ta)
    (hne : fromNum ≠ toNum) (hq : 0 < q)
    (hw : (fa.withdraw q).1 = true) :
    ∃ fa2 ta2,
      lookupMap (bk.transferFunds fromNum toNum q).2.accounts fromNum = some fa2 ∧
      lookupMap (bk.transferFunds fromNum toNum q).2.accounts toNum = some ta2 ∧
      fa2.balance = fa.balance - q ∧
      ta2.balance = ta.balance + q ∧
      fa2.balance + ta2.balance = fa.balance + ta.balance ∧
      (∀ k, k ≠ fromNum → k ≠ toNum →
        lookupMap (bk.transferFunds fromNum toNum q).2.accounts k
          = lookupMap bk.accounts k) := by
  have h := Bank.transferFunds_success_eq bk fromNum toNum q fa ta hf ht hne hq hw
  rw [h]
  refine ⟨(fa.withdraw q).2, (ta.deposit q).2, ?_, ?_, ?_, ?_, ?_, ?_⟩
  · rw [lookupMap_update_ne _ toNum fromNum _ hne]
    exact lookupMap_update_self bk.accounts fromNum (fa.withdraw q).2 fa hf
  · have : lookupMap (updateMap bk.accounts fromNum (fa.withdraw q).2) toNum
        = some ta := by
      rw [lookupMap_update_ne _ fromNum toNum _ (Ne.symm hne)]
      exact ht
    exact lookupMap_update_self _ toNum (ta.deposit q).2 ta this
  · rw [Account.withdraw_success_eq fa q hw]
  · rw [Account.deposit_success_eq ta q ((Account.deposit_true_iff ta q).mpr hq)]
  · rw [Account.withdraw_success_eq fa q hw,
        Account.deposit_success_eq ta q ((Account.deposit_true_iff ta q).mpr hq)]
    ring
  · intro k hkf hkt
    rw [lookupMap_update_ne _ toNum k _ hkt, lookupMap_update_ne _ fromNum k _ hkf]

/-- Witness for C9: transferring 600 from the checking account (balance
500, overdraft 200) to the base account (balance 5) succeeds using the
overdraft and conserves the 505 total. -/
theorem c9_transfer_conservation_witness :
    ∃ fa2 ta2,
      lookupMap (sampleBank.transferFunds "ACC100001" "ACC100000" 600).2.accounts
        "ACC100001" = some fa2 ∧
      lookupMap (sampleBank.transferFunds "ACC100001" "ACC100000" 600).2.accounts
        "ACC100000" = some ta2 ∧
      fa2.balance = sampleChecking.balance - 600 ∧
      ta2.balance = sampleBase.balance + 600 ∧
      fa2.balance + ta2.balance = sampleChecking.balance + sampleBase.balance ∧
      (∀ k, k ≠ "ACC100001" → k ≠ "ACC100000" →
        lookupMap (sampleBank.transferFunds "ACC100001" "ACC100000" 600).2.accounts k
          = lookupMap sampleBank.accounts k) :=
  c9_transfer_conservation sampleBank "ACC100001" "ACC100000" 600
    sampleChecking sampleBase rfl rfl (by decide) (by norm_num)
    (by rw [Account.withdraw_true_iff]
        refine ⟨by norm_num, ?_⟩
        show (600 : ℚ) ≤ sampleChecking.balance + 200
        norm_num [sampleChecking])

/-! Claim C4: the checking-account overdraft floor. -/

/-- The checking-account floor invariant: a checking account has a
non-negative overdraft limit and a balance no lower than its negation;
for the other variants the condition is vacuous. -/
def CheckOK (a : Account) : Prop :=
  match a.kind with
  | AccountKind.checking L => 0 ≤ L ∧ -L ≤ a.balance
  | _ => True

/-- A base-constructor success implies the initial balance was
non-negative. -/
theorem mkAccount_ok_nonneg (n o : String) (b : ℚ) (a : Account)
    (h : mkAccount n o b = Except.ok a) : 0 ≤ b := by
  unfold mkAccount at h
  split_ifs at h with h1 h2 h3
  exact not_lt.mp h3

/-- A valid checking-account construction establishes the floor invariant. -/
theorem mkCheckingAccount_checkOK (n o : String) (b L : ℚ) (a : Account)
    (h : mkCheckingAccount n o b L = Except.ok a) : CheckOK a := by
  unfold mkCheckingAccount at h
  cases hm : mkAccount n o b with
  | error e =>
      rw [hm] at h
      cases h
  | ok a0 =>
      rw [hm] at h
      split_ifs at h with hL
      cases h
      have hf := mkAccount_ok_fields n o b a0 hm
      have hb := mkAccount_ok_nonneg n o b a0 hm
      show 0 ≤ L ∧ -L ≤ a0.balance
      refine ⟨not_lt.mp hL, ?_⟩
      rw [hf.1]
      have := not_lt.mp hL
      linarith

/-- Deposits preserve the checking floor invariant. -/
theorem CheckOK_deposit (a : Account) (q : ℚ) (h : CheckOK a) :
    CheckOK (a.deposit q).2 := by
  by_cases hq : q ≤ 0
  · have hd : a.deposit q = (false, a) := by
      unfold Account.deposit
      simp [hq]
    rw [hd]
    exact h
  · rw [not_le] at hq
    rw [Account.deposit_success_eq a q ((Account.deposit_true_iff a q).mpr hq)]
    unfold CheckOK at h ⊢
    cases hk : a.kind with
    | base => trivial
    | savings r => trivial
    | checking L =>
        rw [hk] at h
        obtain ⟨h1, h2⟩ := h
        show 0 ≤ L ∧ -L ≤ a.balance + q
        exact ⟨h1, by linarith⟩

/-- Withdrawals preserve the checking floor invariant: a withdrawal that
would break the floor is rejected and changes nothing. -/
theorem CheckOK_withdraw (a : Account) (q : ℚ) (h : CheckOK a) :
    CheckOK (a.withdraw q).2 := by
  cases hb : (a.withdraw q).1 with
  | false =>
      rw [Account.withdraw_fail_eq a q hb]
      exact h
  | true =>
      have hcond := (Account.withdraw_true_iff a q).mp hb
      rw [Account.withdraw_success_eq a q hb]
      unfold CheckOK at h ⊢
      cases hk : a.kind with
      | base => trivial
      | savings r => trivial
      | checking L =>
          rw [hk] at h hcond
          obtain ⟨h1, h2⟩ := h
          obtain ⟨hq, hle⟩ := hcond
          have hle2 : q ≤ a.balance + L := hle
          show 0 ≤ L ∧ -L ≤ a.balance - q
          exact ⟨h1, by linarith⟩

/-- Case analysis on the registry produced by a transfer: it is unchanged,
updated at the source only (failed withdrawal writes the unchanged object
back), or updated at the source and then the destination. -/
theorem Bank.transferFunds_state_cases (bk : Bank) (f t : String) (q : ℚ) :
    (bk.transferFunds f t q).2 = bk ∨
    (∃ fa, lookupMap bk.accounts f = some fa ∧
      (bk.transferFunds f t q).2.accounts
        = updateMap bk.accounts f (fa.withdraw q).2) ∨
    (∃ fa ta, lookupMap bk.accounts f = some fa ∧
      lookupMap bk.accounts t = some ta ∧
      (bk.transferFunds f t q).2.accounts
        = updateMap (updateMap bk.accounts f (fa.withdraw q).2) t (ta.deposit q).2) := by
  unfold Bank.transferFunds
  cases hf : lookupMap bk.accounts f with
  | none => exact Or.inl rfl
  | some fa =>
      cases ht : lookupMap bk.accounts t with
      | none => exact Or.inl rfl
      | some ta =>
          by_cases h1 : f = t
          · simp only [if_pos h1]
            exact Or.inl trivial
          · simp only [if_neg h1]
            by_cases h2 : q ≤ 0
            · simp only [if_pos h2]
              exact Or.inl trivial
            · simp only [if_neg h2]
              by_cases h3 : (fa.withdraw q).1 = true
              · simp only [h3, if_true]
                exact Or.inr (Or.inr ⟨fa, ta, rfl, rfl, rfl⟩)
              · simp only [h3, if_false]
                exact Or.inr (Or.inl ⟨fa, rfl, rfl⟩)

/-- Every account object stored after a transfer is an old stored object,
or an old stored object after one withdrawal or one deposit. -/
theorem transferFunds_mem (bk : Bank) (f t : String) (q : ℚ)
    (e : String × Account) (he : e ∈ (bk.transferFunds f t q).2.accounts) :
    e ∈ bk.accounts ∨
    (∃ fa, lookupMap bk.accounts f = some fa ∧ e.2 = (fa.withdraw q).2) ∨
    (∃ ta, lookupMap bk.accounts t = some ta ∧ e.2 = (ta.deposit q).2) := by
  rcases Bank.transferFunds_state_cases bk f t q with h | ⟨fa, hf, h⟩ | ⟨fa, ta, hf, ht, h⟩
  · rw [h] at he
    exact Or.inl he
  · rw [h] at he
    rcases mem_updateMap _ _ _ _ he with h1 | h1
    · exact Or.inr (Or.inl ⟨fa, hf, h1⟩)
    · exact Or.inl h1
  · rw [h] at he
    rcases mem_updateMap _ _ _ _ he with h1 | h1
    · exact Or.inr (Or.inr ⟨ta, ht, h1⟩)
    · rcases mem_updateMap _ _ _ _ h1 with h2 | h2
      · exact Or.inr (Or.inl ⟨fa, hf, h2⟩)
      · exact Or.inl h2

/-- One bank-level operation preserves the floor invariant on every stored
account. -/
theorem CheckOK_applyBankOp (bk : Bank) (op : BankOp)
    (h : ∀ e ∈ bk.accounts, CheckOK e.2) :
    ∀ e ∈ (bk.applyBankOp op).accounts, CheckOK e.2 := by
  cases op with
  | dep n q =>
      cases hl : lookupMap bk.accounts n with
      | none =>
          have heq : bk.applyBankOp (BankOp.dep n q) = bk := by
            simp [Bank.applyBankOp, hl]
          rw [heq]
          exact h
      | some a =>
          have heq : (bk.applyBankOp (BankOp.dep n q)).accounts
              = updateMap bk.accounts n (a.deposit q).2 := by
            simp [Bank.applyBankOp, hl]
          rw [heq]
          intro e he
          rcases mem_updateMap _ _ _ _ he with h1 | h1
          · rw [h1]
            exact CheckOK_deposit a q (h _ (lookupMap_mem _ _ _ hl))
          · exact h _ h1
  | wd n q =>
      cases hl : lookupMap bk.accounts n with
      | none =>
          have heq : bk.applyBankOp (BankOp.wd n q) = bk := by
            simp [Bank.applyBankOp, hl]
          rw [heq]
          exact h
      | some a =>
          have heq : (bk.applyBankOp (BankOp.wd n q)).accounts
              = updateMap bk.accounts n (a.withdraw q).2 := by
            simp [Bank.applyBankOp, hl]
          rw [heq]
          intro e he
          rcases mem_updateMap _ _ _ _ he with h1 | h1
          · rw [h1]
            exact CheckOK_withdraw a q (h _ (lookupMap_mem _ _ _ hl))
          · exact h _ h1
  | transfer f t q =>
      intro e he
      have he2 : e ∈ (bk.transferFunds f t q).2.accounts := he
      rcases transferFunds_mem bk f t q e he2 with h1 | ⟨fa, hfa, h1⟩ | ⟨ta, hta, h1⟩
      · exact h _ h1
      · rw [h1]
        exact CheckOK_withdraw fa q (h _ (lookupMap_mem _ _ _ hfa))
      · rw [h1]
        exact CheckOK_deposit ta q (h _ (lookupMap_mem _ _ _ hta))

/-- C4: for every checking account created with a non-negative initial
balance and non-negative overdraft limit, balance ≥ -overdraftLimit holds
after every sequence of deposit, withdraw, and transfer operations —
stated as: construction establishes the floor invariant, every sequence of
bank-level operations preserves it for all stored accounts, and a rejected
withdrawal leaves the account, in particular its balance, unchanged. -/
theorem c4_checking_floor_invariant (bk : Bank) (ops : List BankOp)
    (hinv : ∀ e ∈ bk.accounts, CheckOK e.2) :
    (∀ e ∈ (bk.applyBankOps ops).accounts, CheckOK e.2) ∧
    (∀ n o b L a, mkCheckingAccount n o b L = Except.ok a → CheckOK a) ∧
    (∀ (a : Account) (q : ℚ), (a.withdraw q).1 = false → (a.withdraw q).2 = a) := by
  refine ⟨?_, ?_, ?_⟩
  · induction ops generalizing bk with
    | nil => exact hinv
    | cons op rest ih =>
        unfold Bank.applyBankOps at ih ⊢
        simp only [List.foldl_cons]
        exact ih (bk.applyBankOp op) (CheckOK_applyBankOp bk op hinv)
  · intro n o b L a h
    exact mkCheckingAccount_checkOK n o b L a h
  · intro a q h
    have h2 := Account.withdraw_fail_eq a q h
    rw [h2]

/-- Witness for C4: the sample bank satisfies the floor invariant, and it
is preserved by a concrete operation sequence that drives the checking
account into its overdraft and then rejects a further withdrawal. -/
theorem c4_checking_floor_invariant_witness :
    (∀ e ∈ (sampleBank.applyBankOps
        [BankOp.wd "ACC100001" 600, BankOp.wd "ACC100001" 300]).accounts,
      CheckOK e.2) ∧
    (∀ n o b L a, mkCheckingAccount n o b L = Except.ok a → CheckOK a) ∧
    (∀ (a : Account) (q : ℚ), (a.withdraw q).1 = false → (a.withdraw q).2 = a) :=
  c4_checking_floor_invariant sampleBank
    [BankOp.wd "ACC100001" 600, BankOp.wd "ACC100001" 300]
    (by
      intro e he
      simp only [sampleBank, List.mem_cons, List.not_mem_nil, or_false] at he
      rcases he with he | he <;> rw [he] <;> unfold CheckOK <;>
        norm_num [sampleBase, sampleChecking])

/-! Claim C8. -/

/-- An out-of-range interest rate makes the savings constructor fail. -/
theorem mkSavingsAccount_bad_rate (n o : String) (b r : ℚ)
    (hr : r < 0 ∨ 1 < r) :
    ∃ msg, mkSavingsAccount n o b r = Except.error msg := by
  unfold mkSavingsAccount
  cases hm : mkAccount n o b with
  | error e => exact ⟨e, rfl⟩
  | ok a0 =>
      exact ⟨_, if_pos hr⟩

/-- C8: for every ledger state containing the named customer, creating a
savings account with an interest rate outside [0,1] fails with the
propagated InvalidArgument construction failure, and the resulting bank
state differs only in the consumed account-number counter — in
particular, no account is registered in the ledger's global account map
and no account number is added to any customer's map. -/
theorem c8_invalid_rate_no_registration (bk : Bank) (cid : String)
    (c : Customer) (hc : lookupMap bk.customers cid = some c)
    (b r od : ℚ) (hr : r < 0 ∨ 1 < r) :
    ∃ msg,
      bk.createAccount cid "savings" b r od
        = (CreateResult.invalidArgument msg,
           { bk with nextAccountNumber := bk.nextAccountNumber + 1 }) := by
  obtain ⟨msg, hmsg⟩ :=
    mkSavingsAccount_bad_rate (mkAcctNum bk.nextAccountNumber) c.name b r hr
  refine ⟨msg, ?_⟩
  unfold Bank.createAccount
  rw [hc]
  simp [hmsg]

/-- Witness for C8: on the sample bank, opening a savings account for the
registered customer with rate 3/2 fails with InvalidArgument and only
consumes the counter. -/
theorem c8_invalid_rate_no_registration_witness :
    ∃ msg,
      sampleBank.createAccount "C1000" "savings" 0 (3/2) 0
        = (CreateResult.invalidArgument msg,
           { sampleBank with
               nextAccountNumber := sampleBank.nextAccountNumber + 1 }) :=
  c8_invalid_rate_no_registration sampleBank "C1000" _ rfl 0 (3/2) 0
    (Or.inr (by norm_num))

/-! Claim C10: decimal account-number generation. The generated numbers
are "ACC" ++ Nat.repr counter; injectivity of the decimal representation
is proved via an explicit reference representation. -/

/-- Reference decimal representation: digits of n, most significant
first. -/
def decChars (n : ℕ) : List Char :=
  if _h : n < 10 then [Nat.digitChar n]
  else decChars (n / 10) ++ [Nat.digitChar (n % 10)]
termination_by n
decreasing_by
  simp_wf
  exact Nat.div_lt_self (by omega) (by norm_num)

/-- Unfolding equation for `decChars` exposing the last digit. -/
theorem decChars_eq (n : ℕ) :
    decChars n
      = (if n < 10 then [] else decChars (n / 10))
          ++ [Nat.digitChar (n % 10)] := by
  by_cases h : n < 10
  · conv_lhs => rw [decChars.eq_def]
    rw [dif_pos h, if_pos h]
    simp [Nat.mod_eq_of_lt h]
  · conv_lhs => rw [decChars.eq_def]
    rw [dif_neg h, if_neg h]

/-- The decimal representation of a number is never empty. -/
theorem decChars_ne_nil (n : ℕ) : decChars n ≠ [] := by
  rw [decChars_eq]
  simp

/-- Digit characters are distinct for distinct digits. -/
theorem digitChar_inj10 :
    ∀ m < 10, ∀ n < 10, Nat.digitChar m = Nat.digitChar n → m = n := by
  decide

/-- The reference decimal representation is injective. -/
theorem decChars_inj (m : ℕ) : ∀ n, decChars m = decChars n → m = n := by
  induction m using Nat.strong_induction_on with
  | _ m ih =>
    intro n h
    rw [decChars_eq m, decChars_eq n] at h
    have hrev := congrArg List.reverse h
    simp only [List.reverse_append, List.reverse_cons, List.reverse_nil,
      List.nil_append, List.cons_append, List.cons.injEq] at hrev
    obtain ⟨hdig, hpre⟩ := hrev
    have hmod : m % 10 = n % 10 :=
      digitChar_inj10 (m % 10) (Nat.mod_lt m (by norm_num))
        (n % 10) (Nat.mod_lt n (by norm_num)) hdig
    have hpre2 : (if m < 10 then ([] : List Char) else decChars (m / 10))
        = (if n < 10 then [] else decChars (n / 10)) := by
      have := congrArg List.reverse hpre
      simpa using this
    by_cases hm : m < 10 <;> by_cases hn : n < 10
    · omega
    · rw [if_pos hm, if_neg hn] at hpre2
      exact absurd hpre2.symm (decChars_ne_nil _)
    · rw [if_neg hm, if_pos hn] at hpre2
      exact absurd hpre2 (decChars_ne_nil _)
    · rw [if_neg hm, if_neg hn] at hpre2
      have hdiv : m / 10 = n / 10 :=
        ih (m / 10) (Nat.div_lt_self (by omega) (by norm_num)) (n / 10) hpre2
      omega

/-- With enough fuel, the core digit printer produces the reference
representation. -/
theorem toDigitsCore_decChars (fuel : ℕ) : ∀ n ds, n < fuel →
    Nat.toDigitsCore 10 fuel n ds = decChars n ++ ds := by
  induction fuel with
  | zero =>
      intro n ds h
      omega
  | succ f ih =>
      intro n ds h
      unfold Nat.toDigitsCore
      by_cases h0 : n / 10 = 0
      · rw [if_pos h0]
        rw [decChars_eq n, if_pos (by omega : n < 10)]
        simp
      · rw [if_neg h0]
        rw [ih (n / 10) _ (by omega)]
        rw [decChars_eq n, if_neg (by omega : ¬ n < 10)]
        simp

/-- The standard decimal printout equals the reference representation. -/
theorem natRepr_eq_decChars (n : ℕ) :
    Nat.repr n = (decChars n).asString := by
  show (Nat.toDigits 10 n).asString = _
  unfold Nat.toDigits
  rw [toDigitsCore_decChars (n + 1) n [] (Nat.lt_succ_self n)]
  simp

/-- The decimal printout of a natural number determines the number. -/
theorem natRepr_inj (m n : ℕ) (h : Nat.repr m = Nat.repr n) : m = n := by
  rw [natRepr_eq_decChars, natRepr_eq_decChars] at h
  exact decChars_inj m n (congrArg String.data h)

/-- Distinct counters generate distinct account numbers. -/
theorem mkAcctNum_inj (m n : ℕ) (h : mkAcctNum m = mkAcctNum n) : m = n := by
  unfold mkAcctNum at h
  have hd : "ACC".data ++ (Nat.repr m).data
      = "ACC".data ++ (Nat.repr n).data := congrArg String.data h
  have hr : (Nat.repr m).data = (Nat.repr n).data :=
    List.append_cancel_left hd
  exact natRepr_inj m n (by
    cases hm : Nat.repr m
    cases hn : Nat.repr n
    rw [hm, hn] at hr
    simp_all)

/-- The base constructor stores the given account number. -/
theorem mkAccount_ok_number (n o : String) (b : ℚ) (a : Account)
    (h : mkAccount n o b = Except.ok a) : a.accountNumber = n := by
  unfold mkAccount at h
  split_ifs at h
  simp only [Except.ok.injEq] at h
  rw [← h]

/-- The savings constructor stores the given account number. -/
theorem mkSavingsAccount_ok_number (n o : String) (b r : ℚ) (a : Account)
    (h : mkSavingsAccount n o b r = Except.ok a) : a.accountNumber = n := by
  unfold mkSavingsAccount at h
  cases hm : mkAccount n o b with
  | error e =>
      rw [hm] at h
      cases h
  | ok a0 =>
      rw [hm] at h
      split_ifs at h
      cases h
      exact mkAccount_ok_number n o b a0 hm

/-- The checking constructor stores the given account number. -/
theorem mkCheckingAccount_ok_number (n o : String) (b L : ℚ) (a : Account)
    (h : mkCheckingAccount n o b L = Except.ok a) : a.accountNumber = n := by
  unfold mkCheckingAccount at h
  cases hm : mkAccount n o b with
  | error e =>
      rw [hm] at h
      cases h
  | ok a0 =>
      rw [hm] at h
      split_ifs at h
      cases h
      exact mkAccount_ok_number n o b a0 hm

/-- A successfully created account carries the number generated from the
counter at the time of the call. -/
theorem createAccount_ok_number (bk : Bank) (cid ty : String)
    (b r od : ℚ) (acc : Account) (bk2 : Bank)
    (h : bk.createAccount cid ty b r od = (CreateResult.ok acc, bk2)) :
    acc.accountNumber = mkAcctNum bk.nextAccountNumber := by
  unfold Bank.createAccount at h
  cases hc : lookupMap bk.customers cid with
  | none =>
      rw [hc] at h
      simp at h
  | some c =>
      rw [hc] at h
      simp only [] at h
      split_ifs at h with h1 h2
      · cases hm : mkSavingsAccount (mkAcctNum bk.nextAccountNumber) c.name b r with
        | error e =>
            rw [hm] at h
            simp at h
        | ok a0 =>
            rw [hm] at h
            simp only [Prod.mk.injEq, CreateResult.ok.injEq] at h
            rw [← h.1]
            exact mkSavingsAccount_ok_number _ _ _ _ _ hm
      · cases hm : mkCheckingAccount (mkAcctNum bk.nextAccountNumber) c.name b od with
        | error e =>
            rw [hm] at h
            simp at h
        | ok a0 =>
            rw [hm] at h
            simp only [Prod.mk.injEq, CreateResult.ok.injEq] at h
            rw [← h.1]
            exact mkCheckingAccount_ok_number _ _ _ _ _ hm
      · simp at h

/-- C10: createAccount with an accountType other than "savings" or
"checking", for an existing customer, returns the invalid-type failure
and only bumps the account-number counter — no account is registered in
the customer's map or the ledger's global map — and the consumed number
is never assigned: every account successfully created from any bank state
with a strictly larger counter (as all later states have) carries a
different account number. -/
theorem c10_invalid_type_consumes_number (bk : Bank) (cid ty : String)
    (c : Customer) (hc : lookupMap bk.customers cid = some c)
    (h1 : ty ≠ "savings") (h2 : ty ≠ "checking") (b r od : ℚ) :
    bk.createAccount cid ty b r od
      = (CreateResult.invalidType,
         { bk with nextAccountNumber := bk.nextAccountNumber + 1 }) ∧
    (∀ (bk2 : Bank) (cid2 ty2 : String) (b2 r2 od2 : ℚ)
       (acc : Account) (bk3 : Bank),
       bk.nextAccountNumber < bk2.nextAccountNumber →
       bk2.createAccount cid2 ty2 b2 r2 od2 = (CreateResult.ok acc, bk3) →
       acc.accountNumber ≠ mkAcctNum bk.nextAccountNumber) := by
  constructor
  · unfold Bank.createAccount
    rw [hc]
    simp [h1, h2]
  · intro bk2 cid2 ty2 b2 r2 od2 acc bk3 hlt hok heq
    rw [createAccount_ok_number bk2 cid2 ty2 b2 r2 od2 acc bk3 hok] at heq
    have := mkAcctNum_inj _ _ heq
    omega

/-- Witness for C10: creating a "premium" account on the sample bank fails
with the invalid-type result and only bumps the counter. -/
theorem c10_invalid_type_consumes_number_witness :
    sampleBank.createAccount "C1000" "premium" 0 0 0
      = (CreateResult.invalidType,
         { sampleBank with
             nextAccountNumber := sampleBank.nextAccountNumber + 1 }) :=
  (c10_invalid_type_consumes_number sampleBank "C1000" "premium" _ rfl
    (by decide) (by decide) 0 0 0).1
